import Mathlib

/-!
Verification development for the personal-health-manager document
analysis pipeline.

The Python sources are embedded shallowly:

* Python strings are modelled as lists of ASCII/Unicode codepoints
  (`PyStr := List Nat`); `pys` converts a Lean string literal to this
  representation.  Python's `str.lower` is modelled on the ASCII range
  (the repository's keyword tables and indicator sets are pure ASCII).
* Python `re` patterns used by the services are fixed character-class
  sequences; they are embedded by specialised leftmost/greedy matchers
  with explicit backtracking (candidate splits tried longest first,
  exactly the order the backtracking engine explores), and `re.findall`
  is the usual non-overlapping left-to-right scan.
* `float(...)` conversion of a matched token is modelled by
  `parseFloatTok`, which succeeds exactly on the token shapes CPython
  accepts for the character class `[\d.]+` (at least one digit, at most
  one dot) and returns the exact rational value; fallible conversion
  surfaces as `Except` like the Python `ValueError`.
* Database-backed operations are modelled against an explicit record
  store (`HealthDB`); external collaborators (LLM backend, filesystem,
  clock) enter as explicit parameters of the orchestrator.
-/

namespace HealthApp

/-- Python strings as lists of codepoints. -/
abbrev PyStr := List Nat

/-- Convert a Lean string literal to its codepoint list. -/
def pys (s : String) : PyStr := s.data.map Char.toNat

/-- ASCII lowercasing of one codepoint, the fragment of `str.lower`
exercised by the repository's ASCII keyword tables. -/
def lowerN (n : Nat) : Nat := if 65 ≤ n ∧ n ≤ 90 then n + 32 else n

/-- `str.lower` on a whole string. -/
def lowerP (s : PyStr) : PyStr := s.map lowerN

/-- Whether `needle` is a prefix of `hay` (codepoint lists). -/
def startsWithL : PyStr → PyStr → Bool
  | [], _ => true
  | _ :: _, [] => false
  | a :: as, b :: bs => a = b && startsWithL as bs

/-- Python's substring test `needle in hay`. -/
def hasSub (needle : PyStr) : PyStr → Bool
  | [] => needle.isEmpty
  | c :: cs => startsWithL needle (c :: cs) || hasSub needle cs

/-- Python's `str.split(sep)` for a one-character separator: keeps empty
pieces, so the result is always nonempty. -/
def splitOnChar (sep : Nat) : PyStr → List PyStr
  | [] => [[]]
  | c :: cs =>
    match splitOnChar sep cs with
    | [] => [[]]
    | h :: t => if c = sep then [] :: h :: t else (c :: h) :: t

/-- Python whitespace (the characters `str.strip` removes). -/
def isSpaceN (n : Nat) : Bool :=
  n = 32 || n = 9 || n = 10 || n = 13 || n = 11 || n = 12

/-- Python's `str.strip()`. -/
def pyStrip (s : PyStr) : PyStr :=
  ((s.dropWhile isSpaceN).reverse.dropWhile isSpaceN).reverse

/-- ASCII decimal digit. -/
def isDigitN (n : Nat) : Bool := 48 ≤ n && n ≤ 57

/-- Regex class `\w` (ASCII fragment). -/
def isW (n : Nat) : Bool :=
  (65 ≤ n && n ≤ 90) || (97 ≤ n && n ≤ 122) || isDigitN n || n = 95

/-- Regex class `[:\s]`. -/
def isCS (n : Nat) : Bool := n = 58 || isSpaceN n

/-- Regex class `[\d.]`. -/
def isDD (n : Nat) : Bool := isDigitN n || n = 46

/-- ASCII letter. -/
def isAlphaN (n : Nat) : Bool := (65 ≤ n && n ≤ 90) || (97 ≤ n && n ≤ 122)

/-- Regex class `[a-zA-Z/]` (the lab-value unit class). -/
def isUnitChar (n : Nat) : Bool := isAlphaN n || n = 47

/-- Numeric value of a digit string (the digits part of `int`/`float`). -/
def digitsToNat (ds : PyStr) : Nat := ds.foldl (fun a c => a * 10 + (c - 48)) 0

/-- Candidate consumptions of a greedy character-class quantifier, longest
first: every `(taken, rest)` split whose taken part has length between
`lo` and the maximal run of `p`-characters, in the order a backtracking
regex engine tries them. -/
def splitsDesc (p : Nat → Bool) (lo : Nat) (l : PyStr) : List (PyStr × PyStr) :=
  if (l.takeWhile p).length < lo then []
  else (List.range ((l.takeWhile p).length + 1 - lo)).map
    (fun i => (l.take ((l.takeWhile p).length - i), l.drop ((l.takeWhile p).length - i)))

/-- Value of a token matched by `[\d.]+` under CPython `float`: defined
exactly when the token has at least one digit and at most one dot, in
which case it denotes the evident rational. -/
def parseFloatTok (t : PyStr) : Option ℚ :=
  if t.all isDD ∧ t.countP (· = 46) ≤ 1 ∧ t.any isDigitN then
    let a := t.takeWhile (· ≠ 46)
    match t.dropWhile (· ≠ 46) with
    | [] => some (digitsToNat a)
    | _ :: b => some (mkRat (digitsToNat a * 10 ^ b.length + digitsToNat b) (10 ^ b.length))
  else none

/-- `re.findall`: non-overlapping scan, left to right; on a match the scan
resumes at the match end, otherwise it advances one position.  The fuel
argument bounds the number of scan steps; every matcher used below
consumes at least one character, so `reFindall` passes fuel equal to the
string length, which is never exhausted. -/
def findAllM (m : PyStr → Option (α × PyStr)) : Nat → PyStr → List α
  | 0, _ => []
  | _ + 1, [] => []
  | fuel + 1, c :: cs =>
    match m (c :: cs) with
    | some (g, rest) => g :: findAllM m fuel rest
    | none => findAllM m fuel cs

/-- All matches of pattern `m` over `l`, as `re.findall` returns them. -/
def reFindall (m : PyStr → Option (α × PyStr)) (l : PyStr) : List α :=
  findAllM m l.length l

/-- `re.search`: the match at the leftmost position where the pattern
succeeds. -/
def reSearch (m : PyStr → Option α) : PyStr → Option α
  | [] => m []
  | c :: cs =>
    match m (c :: cs) with
    | some a => some a
    | none => reSearch m cs

/-- Match of the lab pattern `(\w+)[:\s]*([\d.]+)\s*([a-zA-Z/]+)` anchored
at the head of `l`, returning the three groups and the rest of the
string.  Candidates at each quantifier run longest-first, which is the
backtracking order of the Python engine. -/
def matchLab1At (l : PyStr) : Option ((PyStr × PyStr × PyStr) × PyStr) :=
  (splitsDesc isW 1 l).findSome? fun s1 =>
    (splitsDesc isCS 0 s1.2).findSome? fun s2 =>
      (splitsDesc isDD 1 s2.2).findSome? fun s3 =>
        (splitsDesc isSpaceN 0 s3.2).findSome? fun s4 =>
          (splitsDesc isUnitChar 1 s4.2).findSome? fun s5 =>
            some ((s1.1, s3.1, s5.1), s5.2)

/-- Match of the lab pattern `(\w+)[:\s]*([\d.]+)` anchored at the head of
`l`. -/
def matchLab2At (l : PyStr) : Option ((PyStr × PyStr) × PyStr) :=
  (splitsDesc isW 1 l).findSome? fun s1 =>
    (splitsDesc isCS 0 s1.2).findSome? fun s2 =>
      (splitsDesc isDD 1 s2.2).findSome? fun s3 =>
        some ((s1.1, s3.1), s3.2)

/-- One lab measurement extracted by `_extract_lab_values`. -/
structure LabValue where
  test : PyStr
  value : ℚ
  unit : PyStr
  deriving DecidableEq, Repr

/-- Conversion raising like Python `float`, with the converted values
accumulated left to right and the first failure aborting the call. -/
def mapExc (f : α → Except String β) : List α → Except String (List β)
  | [] => .ok []
  | a :: as =>
    match f a with
    | .error e => .error e
    | .ok b =>
      match mapExc f as with
      | .error e => .error e
      | .ok bs => .ok (b :: bs)

/-- Build a lab record from a three-group match (`float` may raise). -/
def toLabValue3 (g : PyStr × PyStr × PyStr) : Except String LabValue :=
  match parseFloatTok g.2.1 with
  | some q => .ok ⟨g.1, q, g.2.2⟩
  | none => .error "could not convert string to float"

/-- Build a lab record from a two-group match, with empty unit. -/
def toLabValue2 (g : PyStr × PyStr) : Except String LabValue :=
  match parseFloatTok g.2 with
  | some q => .ok ⟨g.1, q, []⟩
  | none => .error "could not convert string to float"

/-- `HealthLLMService._extract_lab_values`: two regex passes, all matches
of the first pattern then all matches of the second, each converted with
`float`; `ValueError` from a conversion propagates out of the call. -/
def extract_lab_values (text : PyStr) : Except String (List LabValue) :=
  match mapExc toLabValue3 (reFindall matchLab1At text) with
  | .error e => .error e
  | .ok v1 =>
    match mapExc toLabValue2 (reFindall matchLab2At text) with
    | .error e => .error e
    | .ok v2 => .ok (v1 ++ v2)

/-- Backtracking candidates for `(?:\.\d+)?` after an integer part:
fraction variants longest first, then the empty option. -/
def fracSplits (intPart : PyStr) (r : PyStr) : List (PyStr × PyStr) :=
  match r with
  | 46 :: r' =>
    ((List.range (r'.takeWhile isDigitN).length).map fun i =>
      (intPart ++ 46 :: r'.take ((r'.takeWhile isDigitN).length - i),
       r'.drop ((r'.takeWhile isDigitN).length - i))) ++ [(intPart, 46 :: r')]
  | _ => [(intPart, r)]

/-- Backtracking candidates for the dose group `(\d+(?:\.\d+)?)`. -/
def doseSplits (l : PyStr) : List (PyStr × PyStr) :=
  (List.range (l.takeWhile isDigitN).length).flatMap fun i =>
    fracSplits (l.take ((l.takeWhile isDigitN).length - i))
      (l.drop ((l.takeWhile isDigitN).length - i))

/-- The unit alternation `(mg|g|ml|mcg)`, tried in declaration order,
matched case-insensitively. -/
def unitLits : List PyStr := [pys "mg", pys "g", pys "ml", pys "mcg"]

/-- Candidates for the unit group: original-case slice plus the rest. -/
def unitSplits (l : PyStr) : List (PyStr × PyStr) :=
  unitLits.filterMap fun u =>
    if lowerP (l.take u.length) = u then some (l.take u.length, l.drop u.length)
    else none

/-- Match of `(\w+)\s*(\d+(?:\.\d+)?)\s*(mg|g|ml|mcg)` (IGNORECASE)
anchored at the head of `l`. -/
def matchMed1At (l : PyStr) : Option ((PyStr × PyStr × PyStr) × PyStr) :=
  (splitsDesc isW 1 l).findSome? fun s1 =>
    (splitsDesc isSpaceN 0 s1.2).findSome? fun s2 =>
      (doseSplits s2.2).findSome? fun s3 =>
        (splitsDesc isSpaceN 0 s3.2).findSome? fun s4 =>
          (unitSplits s4.2).findSome? fun s5 =>
            some ((s1.1, s3.1, s5.1), s5.2)

/-- Match of `(\w+)\s*-\s*(\d+)\s*(mg|g|ml|mcg)` (IGNORECASE) anchored at
the head of `l`. -/
def matchMed2At (l : PyStr) : Option ((PyStr × PyStr × PyStr) × PyStr) :=
  (splitsDesc isW 1 l).findSome? fun s1 =>
    (splitsDesc isSpaceN 0 s1.2).findSome? fun s2 =>
      match s2.2 with
      | 45 :: r =>
        (splitsDesc isSpaceN 0 r).findSome? fun s3 =>
          (splitsDesc isDigitN 1 s3.2).findSome? fun s4 =>
            (splitsDesc isSpaceN 0 s4.2).findSome? fun s5 =>
              (unitSplits s5.2).findSome? fun s6 =>
                some ((s1.1, s4.1, s6.1), s6.2)
      | _ => none

/-- One medication extracted by `_extract_medications_from_text`. -/
structure Medication where
  name : PyStr
  dose : ℚ
  unit : PyStr
  deriving DecidableEq, Repr

/-- Build a medication record from a match: dose through `float`, unit
lowercased as in the source. -/
def toMedication (g : PyStr × PyStr × PyStr) : Except String Medication :=
  match parseFloatTok g.2.1 with
  | some q => .ok ⟨g.1, q, lowerP g.2.2⟩
  | none => .error "could not convert string to float"

/-- `HealthLLMService._extract_medications_from_text`: both medication
patterns, matches appended in pattern order. -/
def extract_medications_from_text (text : PyStr) : Except String (List Medication) :=
  match mapExc toMedication (reFindall matchMed1At text) with
  | .error e => .error e
  | .ok v1 =>
    match mapExc toMedication (reFindall matchMed2At text) with
    | .error e => .error e
    | .ok v2 => .ok (v1 ++ v2)

/-- Case-insensitive literal at the head of `l`; returns the rest. -/
def matchLitCI (lit : PyStr) (l : PyStr) : Option PyStr :=
  if lowerP (l.take lit.length) = lit then some (l.drop lit.length) else none

/-- Match of `heart rate[:\s]*(\d+)` (IGNORECASE) anchored at the head,
returning the digit group. -/
def matchHRAt (l : PyStr) : Option PyStr :=
  (matchLitCI (pys "heart rate") l).bind fun r1 =>
    (splitsDesc isCS 0 r1).findSome? fun s2 =>
      (splitsDesc isDigitN 1 s2.2).findSome? fun s3 => some s3.1

/-- Candidates for the optional group `(interval[:\s]*)?` (IGNORECASE):
present (inner separator longest first) before absent. -/
def optIntervalSplits (l : PyStr) : List PyStr :=
  (match matchLitCI (pys "interval") l with
   | some r => (splitsDesc isCS 0 r).map (·.2)
   | none => []) ++ [l]

/-- Match of `PR[:\s]*(interval[:\s]*)?(\d+)` (IGNORECASE) anchored at the
head, returning the digit group (group 2 in the source). -/
def matchPRAt (l : PyStr) : Option PyStr :=
  (matchLitCI (pys "pr") l).bind fun r1 =>
    (splitsDesc isCS 0 r1).findSome? fun s2 =>
      (optIntervalSplits s2.2).findSome? fun r3 =>
        (splitsDesc isDigitN 1 r3).findSome? fun s4 => some s4.1

/-- Match of `QRS[:\s]*(\d+)` (IGNORECASE) anchored at the head. -/
def matchQRSAt (l : PyStr) : Option PyStr :=
  (matchLitCI (pys "qrs") l).bind fun r1 =>
    (splitsDesc isCS 0 r1).findSome? fun s2 =>
      (splitsDesc isDigitN 1 s2.2).findSome? fun s3 => some s3.1

/-- Output of `HealthLLMService._extract_ecg_data`: fields absent when
their pattern does not occur. -/
structure EcgData where
  heart_rate : Option Nat
  pr_interval : Option Nat
  qrs_duration : Option Nat
  deriving DecidableEq, Repr

/-- `HealthLLMService._extract_ecg_data`: three `re.search` passes with
`int` conversion of the digit group. -/
def extract_ecg_data (text : PyStr) : EcgData where
  heart_rate := (reSearch matchHRAt text).map digitsToNat
  pr_interval := (reSearch matchPRAt text).map digitsToNat
  qrs_duration := (reSearch matchQRSAt text).map digitsToNat

/-- The indicator list of `_identify_abnormal_values`, exactly as written
in the source (note the uppercase `H` and `L`). -/
def abnormal_indicators : List PyStr :=
  [pys "high", pys "low", pys "abnormal", pys "elevated", pys "decreased",
   pys "*", pys "H", pys "L"]

/-- `HealthLLMService._identify_abnormal_values`: keep the lines whose
lowercased form contains some indicator, stripped. -/
def identify_abnormal_values (text : PyStr) : List PyStr :=
  ((splitOnChar 10 text).filter fun line =>
    abnormal_indicators.any fun ind => hasSub ind (lowerP line)).map pyStrip

/-- Keyword list of `_extract_key_points`. -/
def medical_keywords : List PyStr :=
  [pys "diagnosis", pys "treatment", pys "medication", pys "follow-up",
   pys "recommendation"]

/-- `HealthLLMService._extract_key_points`: sentences split on `.`,
filtered by keyword containment in the lowercased sentence, stripped,
first five kept. -/
def extract_key_points (text : PyStr) : List PyStr :=
  (((splitOnChar 46 text).filter fun s =>
    medical_keywords.any fun k => hasSub k (lowerP s)).map pyStrip).take 5

/-- Keyword list of `_identify_action_items`. -/
def action_keywords : List PyStr :=
  [pys "follow up", pys "schedule", pys "return", pys "contact",
   pys "monitor", pys "continue", pys "stop"]

/-- `HealthLLMService._identify_action_items`: like key points but with
the action keywords and no cap. -/
def identify_action_items (text : PyStr) : List PyStr :=
  ((splitOnChar 46 text).filter fun s =>
    action_keywords.any fun k => hasSub k (lowerP s)).map pyStrip

/-- The `medical_patterns` table of `DocumentProcessingService`, in
declaration order (note the uppercase `CBC` keyword, kept as written). -/
def medical_patterns : List (String × List PyStr) :=
  [("ecg", [pys "electrocardiogram", pys "ecg", pys "ekg", pys "heart rhythm",
            pys "cardiac"]),
   ("blood_test", [pys "blood", pys "hemoglobin", pys "glucose",
                   pys "cholesterol", pys "CBC"]),
   ("prescription", [pys "rx", pys "prescription", pys "medication",
                     pys "dosage", pys "mg"]),
   ("radiology", [pys "x-ray", pys "ct scan", pys "mri", pys "ultrasound",
                  pys "radiology"]),
   ("lab_report", [pys "laboratory", pys "lab results", pys "reference range",
                   pys "normal"])]

/-- Per-category keyword counts over the lowercased text, keeping only the
positive scores, in declaration order (the insertion order of the Python
dict `type_scores`). -/
def typeScores (text_lower : PyStr) : List (String × Nat) :=
  (medical_patterns.map fun p =>
    (p.1, p.2.countP fun kw => hasSub kw text_lower)).filter fun p => 0 < p.2

/-- Python `max(xs, key=...)` over a nonempty association list: the first
element whose value no later element strictly exceeds. -/
def pyMaxByVal (p : String × Nat) (ps : List (String × Nat)) : String × Nat :=
  ps.foldl (fun best q => if best.2 < q.2 then q else best) p

/-- `DocumentProcessingService.classify_document_type` (the local
`text_lower` is inlined as `lowerP text`). -/
def classify_document_type (text : PyStr) : String :=
  match typeScores (lowerP text) with
  | p :: ps => (pyMaxByVal p ps).1
  | [] =>
    if [pys "patient", pys "medical", pys "doctor", pys "hospital"].any
        (fun w => hasSub w (lowerP text)) then "medical_document"
    else if [pys "report", pys "analysis", pys "findings"].any
        (fun w => hasSub w (lowerP text)) then "report"
    else "general_document"

/-- The slice of the `process_document` result dict that the classifier,
the confidence scorer and the orchestrator read.  Real arithmetic is
modelled exactly over `ℚ`; `ocr_confidence` is `metadata['confidence']`
when the OCR path recorded one. -/
structure ProcResult where
  text_content : PyStr
  document_type : String
  confidence_score : ℚ
  ocr_confidence : Option ℚ
  error : Option String
  deriving DecidableEq, Repr

/-- `DocumentProcessingService.calculate_confidence_score`. -/
def calculate_confidence_score (result : ProcResult) : ℚ :=
  let score : ℚ := 0
  let score := if result.text_content ≠ [] then score + 1/2 else score
  let text_length := result.text_content.length
  let score :=
    if 100 < text_length then score + 1/5
    else if 50 < text_length then score + 1/10
    else score
  let score := if result.document_type ≠ "unknown" then score + 1/5 else score
  let score :=
    match result.ocr_confidence with
    | some c => score + c * (1/10)
    | none => score
  min score 1

/-- Outcome of the per-format extraction stage inside `process_document`:
either an error was recorded (unsupported format, missing library, or a
processor exception, in which case no text was stored) or a processor
returned text plus metadata. -/
inductive StepResult where
  | failed (msg : String)
  | extracted (text_content : PyStr) (ocr_confidence : Option ℚ)
  deriving DecidableEq, Repr

/-- `DocumentProcessingService.process_document` after the extraction
routing: classification and confidence scoring run exactly when text is
nonempty and no error is set. -/
def process_document (step : StepResult) : ProcResult :=
  let result : ProcResult :=
    match step with
    | .failed msg => ⟨[], "unknown", 0, none, some msg⟩
    | .extracted t c => ⟨t, "unknown", 0, c, none⟩
  if result.text_content ≠ [] ∧ result.error = none then
    let r := { result with document_type := classify_document_type result.text_content }
    { r with confidence_score := calculate_confidence_score r }
  else result

/-- The `supported_formats` table of `DocumentProcessingService`,
including the `medical` family. -/
def supported_formats : List (String × List PyStr) :=
  [("pdf", [pys ".pdf"]),
   ("word", [pys ".docx", pys ".doc"]),
   ("text", [pys ".txt", pys ".rtf"]),
   ("image", [pys ".jpg", pys ".jpeg", pys ".png", pys ".bmp", pys ".tiff",
              pys ".tif"]),
   ("medical", [pys ".dcm", pys ".dicom"])]

/-- `DocumentProcessingService.get_supported_formats`: all extension
lists concatenated in table order. -/
def get_supported_formats : List PyStr := supported_formats.flatMap (·.2)

/-- A file as `validate_file` observes it: its `Path(...).suffix`
(original case) and its size in bytes; `none` when the path does not
exist. -/
structure FsFile where
  suffix : PyStr
  size : Nat
  deriving DecidableEq, Repr

/-- The message component of the `validate_file` result; the byte-size
rendering inside the too-large message is abstracted to the size itself. -/
inductive ValidationMsg where
  | file_does_not_exist
  | unsupported_file_format (ext : PyStr)
  | file_too_large (size : Nat)
  | file_is_valid
  deriving DecidableEq, Repr

/-- The 50 MB cap of `validate_file`. -/
def MAX_FILE_SIZE : Nat := 50 * 1024 * 1024

/-- `DocumentProcessingService.validate_file`. -/
def validate_file (file : Option FsFile) : Bool × ValidationMsg :=
  match file with
  | none => (false, .file_does_not_exist)
  | some f =>
    let file_extension := lowerP f.suffix
    if file_extension ∉ get_supported_formats then
      (false, .unsupported_file_format file_extension)
    else if MAX_FILE_SIZE < f.size then (false, .file_too_large f.size)
    else (true, .file_is_valid)

/-- One entry of the interaction list returned by
`_basic_interaction_check`. -/
structure Interaction where
  medications : List PyStr
  interaction : String
  severity : String
  deriving DecidableEq, Repr

/-- The `{interactions, warnings}` dict returned by the interaction
checker. -/
structure InteractionResult where
  interactions : List Interaction
  warnings : List String
  deriving DecidableEq, Repr

/-- The static `common_interactions` table, keys in source order. -/
def common_interactions : List ((PyStr × PyStr) × String) :=
  [((pys "warfarin", pys "aspirin"), "Increased bleeding risk"),
   ((pys "metformin", pys "alcohol"), "Risk of lactic acidosis"),
   ((pys "statins", pys "grapefruit"), "Increased statin levels")]

/-- Dict lookup in `common_interactions`. -/
def interactionLookup (k : PyStr × PyStr) : Option String :=
  (common_interactions.find? fun e => e.1 = k).map (·.2)

/-- The ordered pairs produced by the nested loops
`for i, med1 in enumerate(ms): for med2 in ms[i+1:]`. -/
def pairsOf : List α → List (α × α)
  | [] => []
  | x :: xs => (xs.map fun y => (x, y)) ++ pairsOf xs

/-- `HealthLLMService._basic_interaction_check`. -/
def basic_interaction_check (medications : List PyStr) : InteractionResult where
  interactions := (pairsOf medications).filterMap fun p =>
    match interactionLookup (lowerP p.1, lowerP p.2) with
    | some desc => some ⟨[p.1, p.2], desc, "moderate"⟩
    | none =>
      match interactionLookup (lowerP p.2, lowerP p.1) with
      | some desc => some ⟨[p.1, p.2], desc, "moderate"⟩
      | none => none
  warnings := ["Always consult your healthcare provider about medication interactions"]

/-- `HealthLLMService.analyze_medication_interactions` on the no-client
(fallback) configuration: fewer than two medications short-circuits to an
empty result, otherwise the static table check runs. -/
def analyze_medication_interactions (medications : List PyStr) : InteractionResult :=
  if medications.length < 2 then ⟨[], []⟩
  else basic_interaction_check medications

/-- Rebuild a Lean string from codepoints (for rendered messages). -/
def strOfPy (s : PyStr) : String := String.mk (s.map Char.ofNat)

/-- Rendering of `ValidationMsg` into the message strings of the source
(size formatting abstracted). -/
def validationText : ValidationMsg → String
  | .file_does_not_exist => "File does not exist"
  | .unsupported_file_format ext => "Unsupported file format: " ++ strOfPy ext
  | .file_too_large _ => "File too large"
  | .file_is_valid => "File is valid"

/-- External collaborators of one `analyze_document_complete` request:
the validation outcome, the extraction stage outcome, the (opaque) LLM
payload and summary, the measured duration, the outcome of
`_store_analysis_results` (which re-raises on failure) and whether
`_extract_and_store_structured_data` raised internally (it swallows the
exception). -/
structure Workflow where
  validation : Bool × ValidationMsg
  step : StepResult
  llm_analysis : String
  summary : String
  processing_duration : ℚ
  store_main : Except String Nat
  structured_store_fails : Bool
  deriving Repr

/-- The three shapes of dict `analyze_document_complete` returns: a plain
`{error}` dict (validation or processing failure), an
`{error, success: False}` dict (an exception reached the outer handler),
or the full success response with `success: True`. -/
inductive AnalyzeResponse where
  | err (msg : String)
  | failure (msg : String)
  | ok (document_id : Nat) (processing_result : ProcResult)
       (llm_analysis : String) (summary : String) (processing_duration : ℚ)
  deriving DecidableEq, Repr

/-- `DocumentService.analyze_document_complete`.  A failure raised by
`_store_analysis_results` propagates to the outer handler; a failure
inside `_extract_and_store_structured_data` is swallowed there and the
success response is built regardless. -/
def analyze_document_complete (w : Workflow) : AnalyzeResponse :=
  if ¬ w.validation.1 then
    .err ("File validation failed: " ++ validationText w.validation.2)
  else
    match (process_document w.step).error with
    | some e => .err ("Document processing failed: " ++ e)
    | none =>
      match w.store_main with
      | .error e => .failure ("Analysis failed: " ++ e)
      | .ok document_id =>
        .ok document_id (process_document w.step) w.llm_analysis w.summary
          w.processing_duration

/-- A `DocumentAnalysis` row, restricted to the columns
`get_document_details` reads; `llm_analysis` holds the serialized JSON
payload and `created_at` its rendered timestamp. -/
structure DocumentAnalysis where
  id : Nat
  user_id : Nat
  file_name : String
  file_path : String
  document_type : String
  confidence_score : ℚ
  text_content : String
  processing_duration : ℚ
  created_at : String
  llm_analysis : String
  deriving DecidableEq, Repr

/-- A `DocumentSummary` row (JSON columns kept serialized). -/
structure DocumentSummaryRow where
  document_id : Nat
  short_summary : String
  detailed_summary : String
  key_points : String
  action_items : String
  deriving DecidableEq, Repr

/-- An `ExtractedMedication` row (the columns read back by the details
lookup). -/
structure ExtractedMedicationRow where
  document_id : Nat
  medication_name : String
  dosage : String
  frequency : String
  extracted_confidence : ℚ
  deriving DecidableEq, Repr

/-- An `ExtractedLabValue` row. -/
structure ExtractedLabValueRow where
  document_id : Nat
  test_name : String
  value : String
  unit : String
  is_abnormal : Bool
  extracted_confidence : ℚ
  deriving DecidableEq, Repr

/-- A `DocumentTag` row. -/
structure DocumentTagRow where
  document_id : Nat
  tag_name : String
  tag_type : String
  deriving DecidableEq, Repr

/-- The record store the document service queries; each list stands for
one table, in the iteration order the session's queries would return. -/
structure HealthDB where
  docs : List DocumentAnalysis
  summaries : List DocumentSummaryRow
  meds : List ExtractedMedicationRow
  labs : List ExtractedLabValueRow
  tags : List DocumentTagRow
  deriving DecidableEq, Repr

/-- One medication entry of the details response. -/
structure MedEntry where
  name : String
  dosage : String
  frequency : String
  confidence : ℚ
  deriving DecidableEq, Repr

/-- One lab-value entry of the details response. -/
structure LabEntry where
  test : String
  value : String
  unit : String
  is_abnormal : Bool
  confidence : ℚ
  deriving DecidableEq, Repr

/-- The compiled response of `get_document_details` (JSON fields kept in
their serialized form: `analysis` carries `doc.llm_analysis`, and the
summary's key points and action items their stored JSON strings, empty
when no summary row exists). -/
structure DocumentDetails where
  id : Nat
  file_name : String
  file_path : String
  document_type : String
  confidence_score : ℚ
  text_content : String
  processing_duration : ℚ
  created_at : String
  analysis : String
  summary_short : String
  summary_detailed : String
  summary_key_points : String
  summary_action_items : String
  medications : List MedEntry
  lab_values : List LabEntry
  tags : List String
  deriving DecidableEq, Repr

/-- `DocumentService.get_document_details`: the main row is looked up by
`id == document_id` and `user_id == user_id`; the child queries filter on
`document_id` alone. -/
def get_document_details (db : HealthDB) (document_id user_id : Nat) :
    Option DocumentDetails :=
  match db.docs.find? fun d => d.id = document_id ∧ d.user_id = user_id with
  | none => none
  | some doc =>
    let summary := db.summaries.find? fun s => s.document_id = document_id
    let medications := db.meds.filter fun m => m.document_id = document_id
    let lab_values := db.labs.filter fun l => l.document_id = document_id
    let tags := db.tags.filter fun t => t.document_id = document_id
    some
      { id := doc.id
        file_name := doc.file_name
        file_path := doc.file_path
        document_type := doc.document_type
        confidence_score := doc.confidence_score
        text_content := doc.text_content
        processing_duration := doc.processing_duration
        created_at := doc.created_at
        analysis := doc.llm_analysis
        summary_short := (summary.map (·.short_summary)).getD ""
        summary_detailed := (summary.map (·.detailed_summary)).getD ""
        summary_key_points := (summary.map (·.key_points)).getD ""
        summary_action_items := (summary.map (·.action_items)).getD ""
        medications := medications.map fun m =>
          ⟨m.medication_name, m.dosage, m.frequency, m.extracted_confidence⟩
        lab_values := lab_values.map fun l =>
          ⟨l.test_name, l.value, l.unit, l.is_abnormal, l.extracted_confidence⟩
        tags := tags.map (·.tag_name) }

/-- The part of the store owned by user `uid`: documents whose `user_id`
is `uid`, and child rows attached to one of those documents. -/
def userView (db : HealthDB) (uid : Nat) : HealthDB :=
  let owned := db.docs.filter fun d => d.user_id = uid
  let ids := owned.map (·.id)
  { docs := owned
    summaries := db.summaries.filter fun s => s.document_id ∈ ids
    meds := db.meds.filter fun m => m.document_id ∈ ids
    labs := db.labs.filter fun l => l.document_id ∈ ids
    tags := db.tags.filter fun t => t.document_id ∈ ids }

/-! ### General lemmas about the string primitives -/

theorem hasSub_single_iff_mem (c : Nat) (l : PyStr) :
    hasSub [c] l = true ↔ c ∈ l := by
  induction l with
  | nil => simp [hasSub, List.isEmpty]
  | cons b bs ih =>
    simp only [hasSub, startsWithL, Bool.or_eq_true, Bool.and_eq_true,
      decide_eq_true_eq, List.mem_cons, ih]
    tauto

theorem lowerN_not_upper (n : Nat) : ¬(65 ≤ lowerN n ∧ lowerN n ≤ 90) := by
  unfold lowerN
  split <;> omega

theorem hasSub_upper_lowerP (c : Nat) (hc1 : 65 ≤ c) (hc2 : c ≤ 90)
    (s : PyStr) : hasSub [c] (lowerP s) = false := by
  rw [← Bool.not_eq_true, hasSub_single_iff_mem]
  intro hmem
  obtain ⟨a, _, ha⟩ := List.mem_map.mp hmem
  exact lowerN_not_upper a (by omega)

/-! ### C3: abnormal-value lines -/

/-- The abnormal-line selection the claim describes: word indicators and
`*` matched case-insensitively, the single-letter flags `H` and `L`
matched literally against the original line. -/
def abnormalLinesClaimC3 (text : PyStr) : List PyStr :=
  ((splitOnChar 10 text).filter fun line =>
    ([pys "high", pys "low", pys "abnormal", pys "elevated",
      pys "decreased", pys "*"].any fun w => hasSub w (lowerP line))
    || hasSub (pys "H") line || hasSub (pys "L") line).map pyStrip

/-- The effective indicator set of `_identify_abnormal_values`: because
every indicator is tested for literal containment in the lowercased line,
the uppercase flags `H` and `L` can never match. -/
def effective_abnormal_indicators : List PyStr :=
  [pys "high", pys "low", pys "abnormal", pys "elevated", pys "decreased",
   pys "*"]

/-- C3 counterexample: the line `Glucose 250 H` carries a standalone
uppercase `H` flag, so the claim requires it to be returned, but
`_identify_abnormal_values` returns nothing for it: the indicator `H` is
compared against the lowercased line and never matches. -/
theorem identify_abnormal_values_misses_H_flag :
    identify_abnormal_values (pys "Glucose 250 H") = []
    ∧ abnormalLinesClaimC3 (pys "Glucose 250 H") = [pys "Glucose 250 H"] := by
  constructor <;> decide

/-- C3 amended: `_identify_abnormal_values` returns exactly the trimmed
lines whose lowercased form contains one of `high`, `low`, `abnormal`,
`elevated`, `decreased` or `*`; the indicators `H` and `L` are compared
case-sensitively against the lowercased line and therefore never select a
line. -/
theorem identify_abnormal_values_effective (text : PyStr) :
    identify_abnormal_values text =
      ((splitOnChar 10 text).filter fun line =>
        effective_abnormal_indicators.any fun ind =>
          hasSub ind (lowerP line)).map pyStrip := by
  unfold identify_abnormal_values
  congr 1
  apply List.filter_congr
  intro line _
  simp only [abnormal_indicators, effective_abnormal_indicators,
    List.any_cons, List.any_nil,
    show pys "H" = [72] by decide, show pys "L" = [76] by decide,
    hasSub_upper_lowerP 72 (by omega) (by omega) line,
    hasSub_upper_lowerP 76 (by omega) (by omega) line,
    Bool.or_false]

/-! ### C5: confidence score -/

/-- A 120-character text, as in the spec's worked example. -/
def text120 : PyStr := List.replicate 120 97

/-- C5: `calculate_confidence_score` is the additive formula (non-empty
text, length bonus, classified-type bonus, OCR-confidence term) capped at
`1`; on a 120-character `ecg` result with no OCR metadata it is exactly
`0.9`, and on an empty `unknown` result it is `0` (real arithmetic
modelled exactly over `ℚ`). -/
theorem confidence_score_additive (r : ProcResult) :
    calculate_confidence_score r =
      min ((if r.text_content ≠ [] then (1 : ℚ)/2 else 0)
         + (if 100 < r.text_content.length then (1 : ℚ)/5
            else if 50 < r.text_content.length then (1 : ℚ)/10 else 0)
         + (if r.document_type ≠ "unknown" then (1 : ℚ)/5 else 0)
         + ((r.ocr_confidence.map (· * (1/10))).getD 0)) 1 := by
  obtain ⟨tc, dt, cs, oc, er⟩ := r
  simp only [calculate_confidence_score]
  cases oc <;> split_ifs <;> simp

/-- C5: `calculate_confidence_score` is the additive formula (non-empty
text, length bonus, classified-type bonus, OCR-confidence term) capped at
`1`; on a 120-character `ecg` result with no OCR metadata it is exactly
`0.9`, and on an empty `unknown` result it is `0` (real arithmetic
modelled exactly over `ℚ`). -/
theorem calculate_confidence_score_formula :
    (∀ r : ProcResult,
      calculate_confidence_score r =
        min ((if r.text_content ≠ [] then (1 : ℚ)/2 else 0)
           + (if 100 < r.text_content.length then (1 : ℚ)/5
              else if 50 < r.text_content.length then (1 : ℚ)/10 else 0)
           + (if r.document_type ≠ "unknown" then (1 : ℚ)/5 else 0)
           + ((r.ocr_confidence.map (· * (1/10))).getD 0)) 1)
    ∧ calculate_confidence_score ⟨text120, "ecg", 0, none, none⟩ = 9/10
    ∧ calculate_confidence_score ⟨[], "unknown", 0, none, none⟩ = 0 := by
  refine ⟨confidence_score_additive, ?_, ?_⟩
  · rw [confidence_score_additive]
    rw [if_pos (by decide), if_pos (by decide), if_pos (by decide)]
    rw [show ((Option.map (fun x => x * (1/10)) (none : Option ℚ)).getD 0) = 0
      from rfl]
    rw [min_eq_left (by norm_num)]
    norm_num
  · rw [confidence_score_additive]
    rw [if_neg (by decide), if_neg (by decide), if_neg (by decide),
      if_neg (by decide)]
    rw [show ((Option.map (fun x => x * (1/10)) (none : Option ℚ)).getD 0) = 0
      from rfl]
    rw [min_eq_left (by norm_num)]
    norm_num

/-! ### C6: file validation -/

/-- The eleven extensions the claim lists as the supported set. -/
def claimed_supported_extensions : List PyStr :=
  [pys ".pdf", pys ".docx", pys ".doc", pys ".txt", pys ".rtf", pys ".jpg",
   pys ".jpeg", pys ".png", pys ".bmp", pys ".tiff", pys ".tif"]

/-- C6 counterexample: an existing small `.dcm` file is accepted by
`validate_file` (the `medical` family is part of
`get_supported_formats`), yet `.dcm` is not among the claim's eleven
extensions, refuting the claimed equivalence. -/
theorem validate_file_accepts_dcm :
    validate_file (some ⟨pys ".dcm", 1024⟩) = (true, .file_is_valid)
    ∧ pys ".dcm" ∉ claimed_supported_extensions := by
  constructor <;> decide

/-- C6 amended: `validate_file` accepts exactly the existing files whose
lowercased extension is in `get_supported_formats` — the claim's eleven
extensions plus `.dcm` and `.dicom` — and whose size is at most 50 MB;
each failure returns `false` with the message naming the failed
condition. -/
theorem validate_file_characterisation :
    (∀ f : FsFile, (validate_file (some f)).1 = true ↔
        lowerP f.suffix ∈ get_supported_formats ∧ f.size ≤ MAX_FILE_SIZE)
    ∧ (∀ f : FsFile, lowerP f.suffix ∉ get_supported_formats →
        validate_file (some f) = (false, .unsupported_file_format (lowerP f.suffix)))
    ∧ (∀ f : FsFile, lowerP f.suffix ∈ get_supported_formats →
        MAX_FILE_SIZE < f.size →
        validate_file (some f) = (false, .file_too_large f.size))
    ∧ validate_file none = (false, .file_does_not_exist) := by
  refine ⟨fun f => ?_, fun f hmem => ?_, fun f hmem hsize => ?_, rfl⟩
  · simp only [validate_file]
    by_cases h1 : lowerP f.suffix ∉ get_supported_formats
    · rw [if_pos h1]
      exact iff_of_false (by simp) fun h => h1 h.1
    · rw [if_neg h1]
      by_cases h2 : MAX_FILE_SIZE < f.size
      · rw [if_pos h2]
        exact iff_of_false (by simp) fun h => absurd h.2 (by omega)
      · rw [if_neg h2]
        exact iff_of_true rfl ⟨not_not.mp h1, by omega⟩
  · simp only [validate_file]
    rw [if_pos hmem]
  · simp only [validate_file]
    rw [if_neg (not_not.mpr hmem), if_pos hsize]

/-- C6 witness: the amended characterisation applied to a concrete
uppercase `.PDF` file and to a missing file. -/
theorem validate_file_characterisation_witness :
    (validate_file (some ⟨pys ".PDF", 100⟩)).1 = true
    ∧ validate_file none = (false, .file_does_not_exist) :=
  ⟨(validate_file_characterisation.1 ⟨pys ".PDF", 100⟩).mpr ⟨by decide, by decide⟩,
   validate_file_characterisation.2.2.2⟩

/-! ### C4: document classification tie-break -/

/-- Greatest score in an association list (0 on the empty list; every
list this is applied to has positive scores, so the maximum is
attained). -/
def maxVal (l : List (String × Nat)) : Nat := l.foldl (fun a p => max a p.2) 0

/-- The spec-side deterministic pick: the first entry, in declaration
order, whose score equals the maximum. -/
def firstMaxScore (l : List (String × Nat)) : Option (String × Nat) :=
  l.find? fun p => p.2 = maxVal l

theorem foldl_max_eq (a : Nat) (l : List (String × Nat)) :
    l.foldl (fun a p => max a p.2) a = max a (maxVal l) := by
  induction l generalizing a with
  | nil => simp [maxVal]
  | cons q ps ih =>
    have h2 : maxVal (q :: ps) = max (max 0 q.2) (maxVal ps) := by
      show List.foldl (fun a p => max a p.2) (max 0 q.2) ps = _
      rw [ih]
    show List.foldl (fun a p => max a p.2) (max a q.2) ps = max a (maxVal (q :: ps))
    rw [ih, h2]
    omega

theorem maxVal_cons (p : String × Nat) (ps : List (String × Nat)) :
    maxVal (p :: ps) = max p.2 (maxVal ps) := by
  show List.foldl (fun a q => max a q.2) (max 0 p.2) ps = max p.2 (maxVal ps)
  rw [foldl_max_eq]
  omega

theorem pyMaxByVal_first_max (p : String × Nat) (ps : List (String × Nat)) :
    firstMaxScore (p :: ps) = some (pyMaxByVal p ps) := by
  induction ps generalizing p with
  | nil =>
    have h : maxVal [p] = p.2 := by
      show max 0 p.2 = p.2
      omega
    simp [firstMaxScore, pyMaxByVal, h]
  | cons q ps ih =>
    by_cases hpq : p.2 < q.2
    · have h1 : maxVal (p :: q :: ps) = maxVal (q :: ps) := by
        rw [maxVal_cons p, maxVal_cons q]
        omega
      have h2 : ¬(p.2 = maxVal (p :: q :: ps)) := by
        rw [h1, maxVal_cons]
        omega
      simp only [firstMaxScore] at ih ⊢
      rw [List.find?_cons_of_neg _ (by simpa using h2), h1, ih q]
      simp [pyMaxByVal, List.foldl_cons, if_pos hpq]
    · have h1 : maxVal (p :: q :: ps) = maxVal (p :: ps) := by
        rw [maxVal_cons p, maxVal_cons q, maxVal_cons p]
        omega
      have key : (p :: q :: ps).find? (fun r => r.2 = maxVal (p :: q :: ps))
          = (p :: ps).find? (fun r => r.2 = maxVal (p :: ps)) := by
        rw [h1]
        by_cases hp : p.2 = maxVal (p :: ps)
        · rw [List.find?_cons_of_pos _ (by simpa using hp),
            List.find?_cons_of_pos _ (by simpa using hp)]
        · have hq : ¬(q.2 = maxVal (p :: ps)) := by
            rw [maxVal_cons] at hp ⊢
            omega
          rw [List.find?_cons_of_neg _ (by simpa using hp),
            List.find?_cons_of_neg _ (by simpa using hq),
            List.find?_cons_of_neg _ (by simpa using hp)]
      simp only [firstMaxScore] at ih ⊢
      rw [key, ih p]
      simp [pyMaxByVal, List.foldl_cons, if_neg hpq]

/-- C4: when some medical category scores positively,
`classify_document_type` returns the first-declared category attaining
the maximal keyword score (scores are substring-containment counts over
the lowercased text, category order `ecg, blood_test, prescription,
radiology, lab_report`); and the spec's two worked examples hold. -/
theorem classify_document_type_first_max :
    (∀ text : PyStr, ∀ c,
      firstMaxScore (typeScores (lowerP text)) = some c →
      classify_document_type text = c.1)
    ∧ classify_document_type (pys "ecg ekg cardiac rhythm") = "ecg"
    ∧ classify_document_type (pys "") = "general_document" := by
  refine ⟨fun text c h => ?_, by decide, by decide⟩
  unfold classify_document_type
  cases hts : typeScores (lowerP text) with
  | nil =>
    rw [hts] at h
    simp [firstMaxScore] at h
  | cons p ps =>
    rw [hts] at h
    rw [pyMaxByVal_first_max p ps] at h
    cases h
    rfl

/-- C4 witness: on `"ecg blood"` the categories `ecg` and `blood_test`
tie at score 1 and the first-declared `ecg` wins, as the theorem
predicts. -/
theorem classify_document_type_first_max_witness :
    firstMaxScore (typeScores (lowerP (pys "ecg blood"))) = some ("ecg", 1)
    ∧ classify_document_type (pys "ecg blood") = "ecg" :=
  ⟨by decide,
   classify_document_type_first_max.1 (pys "ecg blood") ("ecg", 1) (by decide)⟩

/-! ### C7: medication-interaction fallback check -/

/-- C7: fewer than two medications yields an empty result without error;
for any casing of `warfarin`/`aspirin` in either order, exactly one
interaction entry for that pair is returned with severity `moderate`,
alongside the constant advisory warning. -/
theorem analyze_medication_interactions_pairs :
    (∀ medications : List PyStr, medications.length < 2 →
      analyze_medication_interactions medications = ⟨[], []⟩)
    ∧ (∀ w a : PyStr, lowerP w = pys "warfarin" → lowerP a = pys "aspirin" →
        analyze_medication_interactions [w, a] =
          ⟨[⟨[w, a], "Increased bleeding risk", "moderate"⟩],
           ["Always consult your healthcare provider about medication interactions"]⟩
        ∧ analyze_medication_interactions [a, w] =
          ⟨[⟨[a, w], "Increased bleeding risk", "moderate"⟩],
           ["Always consult your healthcare provider about medication interactions"]⟩) := by
  constructor
  · intro meds h
    unfold analyze_medication_interactions
    rw [if_pos h]
  · intro w a hw ha
    have hlk1 : interactionLookup (pys "warfarin", pys "aspirin")
        = some "Increased bleeding risk" := by decide
    have hlk2 : interactionLookup (pys "aspirin", pys "warfarin") = none := by
      decide
    constructor
    · simp only [analyze_medication_interactions, basic_interaction_check,
        pairsOf, List.map_cons, List.map_nil, List.append_nil,
        List.nil_append, List.filterMap_cons, List.filterMap_nil,
        List.length_cons, List.length_nil]
      rw [if_neg (by omega), hw, ha, hlk1]
    · simp only [analyze_medication_interactions, basic_interaction_check,
        pairsOf, List.map_cons, List.map_nil, List.append_nil,
        List.nil_append, List.filterMap_cons, List.filterMap_nil,
        List.length_cons, List.length_nil]
      rw [if_neg (by omega), hw, ha, hlk2, hlk1]

/-- C7 witness: the theorem applied to mixed-case `Warfarin`/`ASPIRIN`
and to the singleton list `["aspirin"]`. -/
theorem analyze_medication_interactions_pairs_witness :
    analyze_medication_interactions [pys "Warfarin", pys "ASPIRIN"] =
      ⟨[⟨[pys "Warfarin", pys "ASPIRIN"], "Increased bleeding risk", "moderate"⟩],
       ["Always consult your healthcare provider about medication interactions"]⟩
    ∧ analyze_medication_interactions [pys "aspirin"] = ⟨[], []⟩ :=
  ⟨(analyze_medication_interactions_pairs.2 (pys "Warfarin") (pys "ASPIRIN")
      (by decide) (by decide)).1,
   analyze_medication_interactions_pairs.1 [pys "aspirin"] (by decide)⟩

/-! ### Infrastructure for the extractor claims (C2, C8) -/

instance {ε α : Type} [DecidableEq ε] [DecidableEq α] :
    DecidableEq (Except ε α) := fun x y =>
  match x, y with
  | .ok a, .ok b =>
    if h : a = b then isTrue (by rw [h])
    else isFalse (by intro hc; cases hc; exact h rfl)
  | .error e, .error f =>
    if h : e = f then isTrue (by rw [h])
    else isFalse (by intro hc; cases hc; exact h rfl)
  | .ok _, .error _ => isFalse (by intro hc; cases hc)
  | .error _, .ok _ => isFalse (by intro hc; cases hc)

/-- Whether a fallible call returned normally (no Python exception). -/
def exceptIsOk : Except String α → Bool
  | .ok _ => true
  | .error _ => false

theorem exceptIsOk_iff {e : Except String α} :
    exceptIsOk e = true ↔ ∃ b, e = .ok b := by
  cases e <;> simp [exceptIsOk]

theorem mapExc_ok_exists (f : α → Except String β) :
    ∀ l : List α, (∀ a ∈ l, ∃ b, f a = .ok b) → ∃ bs, mapExc f l = .ok bs
  | [], _ => ⟨[], rfl⟩
  | a :: as, h => by
    obtain ⟨b, hb⟩ := h a (List.mem_cons_self a as)
    obtain ⟨bs, hbs⟩ := mapExc_ok_exists f as fun x hx => h x (List.mem_cons_of_mem a hx)
    exact ⟨b :: bs, by simp [mapExc, hb, hbs]⟩

theorem mapExc_isOk_iff (f : α → Except String β) (l : List α) :
    exceptIsOk (mapExc f l) = true ↔ ∀ a ∈ l, exceptIsOk (f a) = true := by
  constructor
  · induction l with
    | nil => simp
    | cons a as ih =>
      intro h x hx
      cases hfa : f a with
      | error e =>
        rw [show mapExc f (a :: as) = .error e by simp [mapExc, hfa]] at h
        exact absurd h (by simp [exceptIsOk])
      | ok b =>
        cases hm : mapExc f as with
        | error e =>
          rw [show mapExc f (a :: as) = .error e by simp [mapExc, hfa, hm]] at h
          exact absurd h (by simp [exceptIsOk])
        | ok bs =>
          rcases List.mem_cons.mp hx with rfl | hx2
          · rw [hfa]
            rfl
          · exact ih (by rw [hm]; rfl) x hx2
  · intro h
    obtain ⟨bs, hbs⟩ := mapExc_ok_exists f l fun a ha => exceptIsOk_iff.mp (h a ha)
    rw [hbs]
    rfl

theorem length_takeWhile_le (p : Nat → Bool) (l : PyStr) :
    (l.takeWhile p).length ≤ l.length := by
  induction l with
  | nil => simp
  | cons c cs ih =>
    by_cases hp : p c
    · rw [List.takeWhile_cons_of_pos hp]
      simpa using ih
    · rw [List.takeWhile_cons_of_neg hp]
      simp

theorem all_take_of_le_takeWhile (p : Nat → Bool) (l : PyStr) (k : Nat)
    (hk : k ≤ (l.takeWhile p).length) : (l.take k).all p = true := by
  induction l generalizing k with
  | nil => simp
  | cons c cs ih =>
    cases k with
    | zero => simp
    | succ k =>
      by_cases hp : p c
      · rw [List.takeWhile_cons_of_pos hp, List.length_cons] at hk
        simp only [List.take_succ_cons, List.all_cons, hp, Bool.true_and]
        exact ih k (by omega)
      · rw [List.takeWhile_cons_of_neg hp] at hk
        simp at hk

theorem splitsDesc_mem {p : Nat → Bool} {lo : Nat} {l : PyStr}
    {ab : PyStr × PyStr} (h : ab ∈ splitsDesc p lo l) :
    ab.1.all p = true ∧ lo ≤ ab.1.length := by
  unfold splitsDesc at h
  split at h
  · simp at h
  · obtain ⟨i, hi, heq⟩ := List.mem_map.mp h
    cases heq
    simp only [List.mem_range] at hi
    have hm := length_takeWhile_le p l
    refine ⟨all_take_of_le_takeWhile p l _ (by omega), ?_⟩
    simp only [List.length_take]
    omega

theorem isDigitN_isDD {n : Nat} (h : isDigitN n = true) : isDD n = true := by
  simp [isDD, h]

theorem isDigitN_ne_dot {n : Nat} (h : isDigitN n = true) : n ≠ 46 := by
  simp only [isDigitN, Bool.and_eq_true, decide_eq_true_eq] at h
  omega

theorem parseFloatTok_guard {t : PyStr} (hdd : t.all isDD = true)
    (hdot : t.countP (· = 46) ≤ 1) (hdig : t.any isDigitN = true) :
    (parseFloatTok t).isSome = true := by
  unfold parseFloatTok
  rw [if_pos ⟨hdd, hdot, hdig⟩]
  split <;> simp

theorem parseFloatTok_all_digits {t : PyStr} (h : t.all isDigitN = true)
    (hne : t ≠ []) : (parseFloatTok t).isSome = true := by
  rw [List.all_eq_true] at h
  refine parseFloatTok_guard ?_ ?_ ?_
  · rw [List.all_eq_true]
    exact fun a ha => isDigitN_isDD (h a ha)
  · have : t.countP (· = 46) = 0 := by
      rw [List.countP_eq_zero]
      intro a ha
      simpa using isDigitN_ne_dot (h a ha)
    omega
  · rw [List.any_eq_true]
    cases t with
    | nil => exact absurd rfl hne
    | cons c cs => exact ⟨c, List.mem_cons_self c cs, h c (List.mem_cons_self c cs)⟩

theorem parseFloatTok_int_frac {a b : PyStr} (ha : a.all isDigitN = true)
    (hb : b.all isDigitN = true) (hbne : b ≠ []) :
    (parseFloatTok (a ++ 46 :: b)).isSome = true := by
  rw [List.all_eq_true] at ha hb
  refine parseFloatTok_guard ?_ ?_ ?_
  · rw [List.all_eq_true]
    intro x hx
    rcases List.mem_append.mp hx with h | h
    · exact isDigitN_isDD (ha x h)
    · rcases List.mem_cons.mp h with h | h
      · simp [isDD, h]
      · exact isDigitN_isDD (hb x h)
  · have h1 : a.countP (· = 46) = 0 := by
      rw [List.countP_eq_zero]
      intro x hx
      simpa using isDigitN_ne_dot (ha x hx)
    have h2 : b.countP (· = 46) = 0 := by
      rw [List.countP_eq_zero]
      intro x hx
      simpa using isDigitN_ne_dot (hb x hx)
    rw [List.countP_append, List.countP_cons]
    simp [h1, h2]
  · rw [List.any_eq_true]
    cases b with
    | nil => exact absurd rfl hbne
    | cons c cs =>
      exact ⟨c, by simp, hb c (List.mem_cons_self c cs)⟩

theorem fracSplits_parse {intPart r : PyStr} {ab : PyStr × PyStr}
    (hint : intPart.all isDigitN = true) (hne : intPart ≠ [])
    (h : ab ∈ fracSplits intPart r) : (parseFloatTok ab.1).isSome = true := by
  unfold fracSplits at h
  split at h
  · rename_i r2
    rcases List.mem_append.mp h with h | h
    · obtain ⟨i, hi, heq⟩ := List.mem_map.mp h
      cases heq
      simp only [List.mem_range] at hi
      have hle := length_takeWhile_le isDigitN r2
      refine parseFloatTok_int_frac hint
        (all_take_of_le_takeWhile isDigitN r2 _ (by omega)) ?_
      intro hnil
      have hlen : (r2.take ((r2.takeWhile isDigitN).length - i)).length = 0 := by
        rw [hnil]
        rfl
      rw [List.length_take] at hlen
      omega
    · rcases List.mem_singleton.mp h with rfl
      exact parseFloatTok_all_digits hint hne
  · rcases List.mem_singleton.mp h with rfl
    exact parseFloatTok_all_digits hint hne

theorem doseSplits_parse {l : PyStr} {ab : PyStr × PyStr}
    (h : ab ∈ doseSplits l) : (parseFloatTok ab.1).isSome = true := by
  unfold doseSplits at h
  obtain ⟨i, hi, hmem⟩ := List.mem_flatMap.mp h
  simp only [List.mem_range] at hi
  have hm := length_takeWhile_le isDigitN l
  refine fracSplits_parse (all_take_of_le_takeWhile isDigitN l _ (by omega)) ?_ hmem
  intro hc
  have hlen : (l.take ((l.takeWhile isDigitN).length - i)).length = 0 := by
    rw [hc]
    rfl
  rw [List.length_take] at hlen
  omega

theorem mem_findAllM {m : PyStr → Option (α × PyStr)} {fuel : Nat} {l : PyStr}
    {a : α} (h : a ∈ findAllM m fuel l) : ∃ s r, m s = some (a, r) := by
  induction fuel generalizing l with
  | zero => simp [findAllM] at h
  | succ fuel ih =>
    cases l with
    | nil => simp [findAllM] at h
    | cons c cs =>
      unfold findAllM at h
      cases hm : m (c :: cs) with
      | some gr =>
        rw [hm] at h
        rcases List.mem_cons.mp h with rfl | h
        · exact ⟨c :: cs, gr.2, by rw [hm]⟩
        · exact ih h
      | none =>
        rw [hm] at h
        exact ih h

theorem matchMed1At_dose {l : PyStr} {g : PyStr × PyStr × PyStr} {rest : PyStr}
    (h : matchMed1At l = some (g, rest)) : (parseFloatTok g.2.1).isSome = true := by
  unfold matchMed1At at h
  obtain ⟨s1, _, h⟩ := List.exists_of_findSome?_eq_some h
  obtain ⟨s2, _, h⟩ := List.exists_of_findSome?_eq_some h
  obtain ⟨s3, hs3, h⟩ := List.exists_of_findSome?_eq_some h
  obtain ⟨s4, _, h⟩ := List.exists_of_findSome?_eq_some h
  obtain ⟨s5, _, h⟩ := List.exists_of_findSome?_eq_some h
  injection h with h'
  injection h' with hg hrest
  rw [← hg]
  show (parseFloatTok s3.1).isSome = true
  exact doseSplits_parse hs3

theorem matchMed2At_dose {l : PyStr} {g : PyStr × PyStr × PyStr} {rest : PyStr}
    (h : matchMed2At l = some (g, rest)) : (parseFloatTok g.2.1).isSome = true := by
  unfold matchMed2At at h
  obtain ⟨s1, _, h⟩ := List.exists_of_findSome?_eq_some h
  obtain ⟨s2, _, h⟩ := List.exists_of_findSome?_eq_some h
  split at h
  · rename_i r hr
    obtain ⟨s3, _, h⟩ := List.exists_of_findSome?_eq_some h
    obtain ⟨s4, hs4, h⟩ := List.exists_of_findSome?_eq_some h
    obtain ⟨s5, _, h⟩ := List.exists_of_findSome?_eq_some h
    obtain ⟨s6, _, h⟩ := List.exists_of_findSome?_eq_some h
    injection h with h'
    injection h' with hg hrest
    rw [← hg]
    show (parseFloatTok s4.1).isSome = true
    obtain ⟨hall, hlen⟩ := splitsDesc_mem hs4
    refine parseFloatTok_all_digits hall ?_
    intro hc
    rw [hc] at hlen
    simp at hlen
  · exact absurd h (by simp)

theorem toMedication_isOk {g : PyStr × PyStr × PyStr}
    (h : (parseFloatTok g.2.1).isSome = true) :
    ∃ m, toMedication g = .ok m := by
  unfold toMedication
  cases hp : parseFloatTok g.2.1 with
  | none => rw [hp] at h; simp at h
  | some q => exact ⟨⟨g.1, q, lowerP g.2.2⟩, rfl⟩

theorem toLabValue3_isOk (g : PyStr × PyStr × PyStr) :
    exceptIsOk (toLabValue3 g) = (parseFloatTok g.2.1).isSome := by
  unfold toLabValue3
  cases parseFloatTok g.2.1 <;> rfl

theorem toLabValue2_isOk (g : PyStr × PyStr) :
    exceptIsOk (toLabValue2 g) = (parseFloatTok g.2).isSome := by
  unfold toLabValue2
  cases parseFloatTok g.2 <;> rfl

/-! ### C2: totality of the structured-data extractors -/

/-- C2 counterexample: on the text `"x: ."` the second lab pattern
matches the token `"."`, whose `float` conversion raises `ValueError`, so
`_extract_lab_values` raises past its boundary instead of returning a
collection. -/
theorem extract_lab_values_raises_valueerror :
    extract_lab_values (pys "x: .") = .error "could not convert string to float"
    ∧ reFindall matchLab2At (pys "x: .") = [(pys "x", pys ".")] := by
  constructor <;> decide

/-- C2 amended: `_extract_medications_from_text` never raises (its dose
group `\d+(?:\.\d+)?` always converts), and likewise `_extract_ecg_data`,
`_identify_abnormal_values`, `_extract_key_points` and
`_identify_action_items` are total (they are failure-free functions of
the text in this embedding); but `_extract_lab_values` is not total: it
returns normally exactly when every numeric token matched by its two
patterns is a valid float (at least one digit, at most one dot), and
raises `ValueError` otherwise, e.g. on `"x: ."`. -/
theorem extractors_total_except_lab_values :
    (∀ text : PyStr, ∃ ms, extract_medications_from_text text = .ok ms)
    ∧ (∀ text : PyStr,
        exceptIsOk (extract_lab_values text) = true ↔
          ((reFindall matchLab1At text).all fun g => (parseFloatTok g.2.1).isSome)
          ∧ ((reFindall matchLab2At text).all fun g => (parseFloatTok g.2).isSome)) := by
  constructor
  · intro text
    obtain ⟨v1, hv1⟩ := mapExc_ok_exists toMedication (reFindall matchMed1At text)
      (fun g hg => by
        obtain ⟨s, r, hm⟩ := mem_findAllM hg
        exact toMedication_isOk (matchMed1At_dose hm))
    obtain ⟨v2, hv2⟩ := mapExc_ok_exists toMedication (reFindall matchMed2At text)
      (fun g hg => by
        obtain ⟨s, r, hm⟩ := mem_findAllM hg
        exact toMedication_isOk (matchMed2At_dose hm))
    refine ⟨v1 ++ v2, ?_⟩
    unfold extract_medications_from_text
    rw [hv1, hv2]
  · intro text
    have e1 : exceptIsOk (mapExc toLabValue3 (reFindall matchLab1At text)) = true
        ↔ ((reFindall matchLab1At text).all
            fun g => (parseFloatTok g.2.1).isSome) = true := by
      rw [mapExc_isOk_iff, List.all_eq_true]
      exact forall_congr' fun g => imp_congr_right fun _ => by
        rw [toLabValue3_isOk]
    have e2 : exceptIsOk (mapExc toLabValue2 (reFindall matchLab2At text)) = true
        ↔ ((reFindall matchLab2At text).all
            fun g => (parseFloatTok g.2).isSome) = true := by
      rw [mapExc_isOk_iff, List.all_eq_true]
      exact forall_congr' fun g => imp_congr_right fun _ => by
        rw [toLabValue2_isOk]
    unfold extract_lab_values
    cases hm1 : mapExc toLabValue3 (reFindall matchLab1At text) with
    | error e =>
      rw [hm1] at e1
      constructor
      · intro h
        exact absurd h (by simp [exceptIsOk])
      · intro ⟨h1, h2⟩
        exact absurd (e1.mpr h1) (by simp [exceptIsOk])
    | ok v1 =>
      rw [hm1] at e1
      cases hm2 : mapExc toLabValue2 (reFindall matchLab2At text) with
      | error e =>
        rw [hm2] at e2
        constructor
        · intro h
          exact absurd h (by simp [exceptIsOk])
        · intro ⟨h1, h2⟩
          exact absurd (e2.mpr h2) (by simp [exceptIsOk])
      | ok v2 =>
        rw [hm2] at e2
        exact iff_of_true rfl ⟨e1.mp rfl, e2.mp rfl⟩

/-- C2 witness: medications extraction succeeds on a concrete
prescription line and lab extraction succeeds on a clean lab line. -/
theorem extractors_total_except_lab_values_witness :
    (∃ ms, extract_medications_from_text (pys "Aspirin 100mg") = .ok ms)
    ∧ exceptIsOk (extract_lab_values (pys "Glucose: 99")) = true :=
  ⟨extractors_total_except_lab_values.1 (pys "Aspirin 100mg"),
   (extractors_total_except_lab_values.2 (pys "Glucose: 99")).mpr
     ⟨by decide, by decide⟩⟩

/-! ### C8: duplicate lab-value extraction across the two passes -/

/-- C8 counterexample: on `"a1 2b3 4mg"` the first pattern matches the
fragment `3 4mg` (test `3`, value `4`, unit `mg`), but the second pass —
an independent non-overlapping scan — yields `(a1, 2)` and `(b3, 4)`
only, so no `{test 3, value 4, empty unit}` duplicate appears in the
output, refuting the claimed universal duplication. -/
theorem extract_lab_values_duplicate_not_universal :
    reFindall matchLab1At (pys "a1 2b3 4mg")
      = [(pys "a1", pys "2", pys "b"), (pys "3", pys "4", pys "mg")]
    ∧ extract_lab_values (pys "a1 2b3 4mg")
      = .ok [⟨pys "a1", 2, pys "b"⟩, ⟨pys "3", 4, pys "mg"⟩,
             ⟨pys "a1", 2, []⟩, ⟨pys "b3", 4, []⟩]
    ∧ (⟨pys "3", 4, []⟩ : LabValue)
      ∉ [(⟨pys "a1", 2, pys "b"⟩ : LabValue), ⟨pys "3", 4, pys "mg"⟩,
         ⟨pys "a1", 2, []⟩, ⟨pys "b3", 4, []⟩] := by
  refine ⟨by decide, by decide, by decide⟩

/-- C8 amended: `_extract_lab_values` appends every match of the first
pattern and then every match of the second without deduplication; on
texts whose matches do not interfere (such as `"Glucose: 105 mg/dL"`)
each first-pass tuple recurs with empty unit, but the recurrence is not
guaranteed for every first-pass match because the two `findall` scans are
independent and non-overlapping. -/
theorem extract_lab_values_two_passes :
    (∀ text v1 v2,
      mapExc toLabValue3 (reFindall matchLab1At text) = .ok v1 →
      mapExc toLabValue2 (reFindall matchLab2At text) = .ok v2 →
      extract_lab_values text = .ok (v1 ++ v2))
    ∧ extract_lab_values (pys "Glucose: 105 mg/dL")
      = .ok [⟨pys "Glucose", 105, pys "mg/dL"⟩, ⟨pys "Glucose", 105, []⟩] := by
  refine ⟨fun text v1 v2 h1 h2 => ?_, by decide⟩
  unfold extract_lab_values
  rw [h1, h2]

/-- C8 witness: the two-pass decomposition applied to `"WBC: 7.5 k/uL"`. -/
theorem extract_lab_values_two_passes_witness :
    mapExc toLabValue3 (reFindall matchLab1At (pys "WBC: 7.5 k/uL"))
      = .ok [⟨pys "WBC", mkRat 15 2, pys "k/uL"⟩]
    ∧ mapExc toLabValue2 (reFindall matchLab2At (pys "WBC: 7.5 k/uL"))
      = .ok [⟨pys "WBC", mkRat 15 2, []⟩]
    ∧ extract_lab_values (pys "WBC: 7.5 k/uL")
      = .ok [⟨pys "WBC", mkRat 15 2, pys "k/uL"⟩, ⟨pys "WBC", mkRat 15 2, []⟩] :=
  ⟨by decide, by decide,
   extract_lab_values_two_passes.1 (pys "WBC: 7.5 k/uL")
     [⟨pys "WBC", mkRat 15 2, pys "k/uL"⟩] [⟨pys "WBC", mkRat 15 2, []⟩]
     (by decide) (by decide)⟩

/-! ### C10: invariants of a successful `process_document` run -/

/-- The eight possible classifier outputs. -/
def classifier_outputs : List String :=
  ["ecg", "blood_test", "prescription", "radiology", "lab_report",
   "medical_document", "report", "general_document"]

theorem pyMaxByVal_mem (p : String × Nat) (ps : List (String × Nat)) :
    pyMaxByVal p ps ∈ p :: ps := by
  induction ps generalizing p with
  | nil => simp [pyMaxByVal]
  | cons q ps ih =>
    have h := ih (if p.2 < q.2 then q else p)
    show pyMaxByVal (if p.2 < q.2 then q else p) ps ∈ p :: q :: ps
    rcases List.mem_cons.mp h with heq | hmem
    · rw [heq]
      split <;> simp
    · simp [hmem]

theorem classify_document_type_mem (text : PyStr) :
    classify_document_type text ∈ classifier_outputs := by
  unfold classify_document_type
  cases hts : typeScores (lowerP text) with
  | nil => split_ifs <;> decide
  | cons p ps =>
    have hmem := pyMaxByVal_mem p ps
    rw [← hts] at hmem
    unfold typeScores at hmem
    obtain ⟨y, hy, hxy⟩ := List.mem_map.mp (List.mem_of_mem_filter hmem)
    show (pyMaxByVal p ps).1 ∈ classifier_outputs
    rw [← hxy]
    simp only [medical_patterns, List.mem_cons, List.not_mem_nil, or_false] at hy
    rcases hy with rfl | rfl | rfl | rfl | rfl
    · exact (by decide : ("ecg" : String) ∈ classifier_outputs)
    · exact (by decide : ("blood_test" : String) ∈ classifier_outputs)
    · exact (by decide : ("prescription" : String) ∈ classifier_outputs)
    · exact (by decide : ("radiology" : String) ∈ classifier_outputs)
    · exact (by decide : ("lab_report" : String) ∈ classifier_outputs)

/-- OCR confidence carried by an extraction-stage outcome. -/
def stepOcr : StepResult → Option ℚ
  | .failed _ => none
  | .extracted _ c => c

theorem confidence_score_bounds (r : ProcResult)
    (htxt : r.text_content ≠ []) (hdt : r.document_type ≠ "unknown")
    (hocr : ∀ c, r.ocr_confidence = some c → 0 ≤ c ∧ c ≤ 1) :
    7/10 ≤ calculate_confidence_score r ∧ calculate_confidence_score r ≤ 1 := by
  rw [confidence_score_additive]
  refine ⟨le_min ?_ (by norm_num), min_le_right _ _⟩
  rw [if_pos htxt, if_pos hdt]
  have h2 : (0:ℚ) ≤ (if 100 < r.text_content.length then (1:ℚ)/5
      else if 50 < r.text_content.length then (1:ℚ)/10 else 0) := by
    split_ifs <;> norm_num
  have h4 : (0:ℚ) ≤ (r.ocr_confidence.map (· * (1/10))).getD 0 := by
    cases hoc : r.ocr_confidence with
    | none => exact le_rfl
    | some c =>
      obtain ⟨hc0, _⟩ := hocr c hoc
      show (0:ℚ) ≤ c * (1/10)
      exact mul_nonneg hc0 (by norm_num)
  linarith

/-- C10: whenever `process_document` returns with no error and nonempty
text, the document type is one of the eight classifier outputs — never
`unknown` — and the confidence score lies in `[0.7, 1]` (assuming the
recorded OCR confidence, an average of per-region easyocr confidences,
lies in `[0, 1]` when present). -/
theorem process_document_classified (step : StepResult)
    (hocr : ∀ c, stepOcr step = some c → 0 ≤ c ∧ c ≤ 1)
    (herr : (process_document step).error = none)
    (htxt : (process_document step).text_content ≠ []) :
    (process_document step).document_type ∈ classifier_outputs
    ∧ (process_document step).document_type ≠ "unknown"
    ∧ 7/10 ≤ (process_document step).confidence_score
    ∧ (process_document step).confidence_score ≤ 1 := by
  cases step with
  | failed msg => simp [process_document] at htxt
  | extracted t oc =>
    by_cases ht : t = []
    · subst ht
      simp [process_document] at htxt
    · have hpd : process_document (.extracted t oc) =
          { text_content := t, document_type := classify_document_type t,
            confidence_score := calculate_confidence_score
              ⟨t, classify_document_type t, 0, oc, none⟩,
            ocr_confidence := oc, error := none } := by
        unfold process_document
        rw [if_pos ⟨ht, rfl⟩]
      rw [hpd]
      have hne : classify_document_type t ≠ "unknown" := by
        intro hc
        have h := classify_document_type_mem t
        rw [hc] at h
        exact absurd h (by decide)
      obtain ⟨hlo, hhi⟩ := confidence_score_bounds
        ⟨t, classify_document_type t, 0, oc, none⟩ ht hne
        (fun c hc => hocr c (by simpa [stepOcr] using hc))
      exact ⟨classify_document_type_mem t, hne, hlo, hhi⟩

/-- C10 witness: the invariant applied to a concrete extracted text. -/
theorem process_document_classified_witness :
    (process_document (.extracted (pys "patient cardiac ecg") none)).document_type
      ∈ classifier_outputs
    ∧ (process_document (.extracted (pys "patient cardiac ecg") none)).document_type
      ≠ "unknown"
    ∧ 7/10 ≤ (process_document (.extracted (pys "patient cardiac ecg") none)).confidence_score
    ∧ (process_document (.extracted (pys "patient cardiac ecg") none)).confidence_score ≤ 1 :=
  process_document_classified (.extracted (pys "patient cardiac ecg") none)
    (fun c h => by simp [stepOcr] at h) (by decide) (by decide)

/-! ### C1: persistence failure in the orchestrator -/

/-- A request in which validation, extraction and analysis all succeed
but `_store_analysis_results` raises. -/
def storeFailWorkflow : Workflow where
  validation := (true, .file_is_valid)
  step := .extracted (pys "blood test hemoglobin results") none
  llm_analysis := "{}"
  summary := "s"
  processing_duration := 1
  store_main := .error "database unavailable"
  structured_store_fails := false

/-- C1 counterexample: with extraction and analysis successful, a failure
of `_store_analysis_results` makes `analyze_document_complete` return the
`{error, success: False}` dict — the exception is re-raised and caught by
the outer handler — instead of the claimed in-memory success response. -/
theorem analyze_document_complete_store_failure_aborts :
    (process_document storeFailWorkflow.step).error = none
    ∧ analyze_document_complete storeFailWorkflow
      = .failure "Analysis failed: database unavailable" := by
  constructor <;> decide

/-- C1 amended: after successful validation and processing, a failure
raised by `_store_analysis_results` aborts the request with
`{error: "Analysis failed: ...", success: False}`; only the separate
structured-data storage step is non-critical — its failure flag never
changes the success response. -/
theorem analyze_document_complete_persistence (w : Workflow)
    (hval : w.validation.1 = true)
    (herr : (process_document w.step).error = none) :
    (∀ e, w.store_main = .error e →
      analyze_document_complete w = .failure ("Analysis failed: " ++ e))
    ∧ (∀ did, w.store_main = .ok did → ∀ b,
      analyze_document_complete { w with structured_store_fails := b }
        = .ok did (process_document w.step) w.llm_analysis w.summary
            w.processing_duration) := by
  constructor
  · intro e he
    simp [analyze_document_complete, hval, herr, he]
  · intro did hd b
    simp [analyze_document_complete, hval, herr, hd]

/-- The same request with the main store succeeding and the structured
store failing. -/
def storeOkWorkflow : Workflow := { storeFailWorkflow with store_main := .ok 7 }

/-- C1 witness: with the main store succeeding, the success response is
returned even when the structured-data store fails. -/
theorem analyze_document_complete_persistence_witness :
    analyze_document_complete { storeOkWorkflow with structured_store_fails := true }
      = .ok 7 (process_document storeOkWorkflow.step) "{}" "s" 1 :=
  (analyze_document_complete_persistence storeOkWorkflow rfl (by decide)).2 7 rfl true

/-! ### C9: user scoping of the details lookup -/

theorem find?_filter_of_imp {α : Type} {p q : α → Bool}
    (h : ∀ x, p x = true → q x = true) (l : List α) :
    (l.filter q).find? p = l.find? p := by
  induction l with
  | nil => rfl
  | cons a as ih =>
    by_cases hq : q a = true
    · rw [List.filter_cons_of_pos hq]
      by_cases hp : p a = true
      · rw [List.find?_cons_of_pos _ hp, List.find?_cons_of_pos _ hp]
      · rw [List.find?_cons_of_neg _ (by simpa using hp),
          List.find?_cons_of_neg _ (by simpa using hp), ih]
    · rw [List.filter_cons_of_neg (by simpa using hq), ih,
        List.find?_cons_of_neg _ (fun hp => hq (h a hp))]

theorem filter_filter_of_imp {α : Type} {p q : α → Bool}
    (h : ∀ x, p x = true → q x = true) (l : List α) :
    (l.filter q).filter p = l.filter p := by
  induction l with
  | nil => rfl
  | cons a as ih =>
    by_cases hq : q a = true
    · rw [List.filter_cons_of_pos hq]
      by_cases hp : p a = true
      · rw [List.filter_cons_of_pos hp, List.filter_cons_of_pos hp, ih]
      · rw [List.filter_cons_of_neg (by simpa using hp),
          List.filter_cons_of_neg (by simpa using hp), ih]
    · rw [List.filter_cons_of_neg (by simpa using hq), ih,
        List.filter_cons_of_neg (by simpa using (fun hp => hq (h a hp)))]

/-- The details lookup reads only the requesting user's slice of the
store: evaluating it against the full store and against `userView`
agree. -/
theorem get_document_details_eq_view (db : HealthDB) (did uid : Nat) :
    get_document_details db did uid = get_document_details (userView db uid) did uid := by
  unfold get_document_details userView
  simp only []
  have hfind : ((db.docs.filter fun d => d.user_id = uid).find?
      fun d => d.id = did ∧ d.user_id = uid)
      = db.docs.find? fun d => d.id = did ∧ d.user_id = uid :=
    find?_filter_of_imp (fun x hx => by
      simp only [decide_eq_true_eq] at hx ⊢
      exact hx.2) db.docs
  rw [hfind]
  cases hf : db.docs.find? fun d => d.id = did ∧ d.user_id = uid with
  | none => rfl
  | some doc =>
    have hp := List.find?_some hf
    simp only [decide_eq_true_eq] at hp
    obtain ⟨hid, huid⟩ := hp
    have hdocmem := List.mem_of_find?_eq_some hf
    have hdid : did ∈ (db.docs.filter fun d => d.user_id = uid).map (·.id) := by
      rw [← hid]
      exact List.mem_map_of_mem _
        (List.mem_filter.mpr ⟨hdocmem, by simp [huid]⟩)
    have himp : ∀ n : Nat, n = did →
        (n ∈ (db.docs.filter fun d => d.user_id = uid).map (·.id)) := by
      rintro n rfl
      exact hdid
    rw [find?_filter_of_imp (p := fun s : DocumentSummaryRow => s.document_id = did)
        (fun x hx => by
          simp only [decide_eq_true_eq] at hx ⊢
          exact himp _ hx) db.summaries,
      filter_filter_of_imp (p := fun m : ExtractedMedicationRow => m.document_id = did)
        (fun x hx => by
          simp only [decide_eq_true_eq] at hx ⊢
          exact himp _ hx) db.meds,
      filter_filter_of_imp (p := fun l : ExtractedLabValueRow => l.document_id = did)
        (fun x hx => by
          simp only [decide_eq_true_eq] at hx ⊢
          exact himp _ hx) db.labs,
      filter_filter_of_imp (p := fun t : DocumentTagRow => t.document_id = did)
        (fun x hx => by
          simp only [decide_eq_true_eq] at hx ⊢
          exact himp _ hx) db.tags]

/-- C9: `get_document_details` is scoped to the requesting user — it
returns a value only when a record with the requested id belongs to that
user, and its output is unchanged between any two store states that agree
on the user's own records (documents of that user and the child rows
attached to them). -/
theorem get_document_details_user_scoped :
    (∀ (db : HealthDB) (did uid : Nat) (d : DocumentDetails),
      get_document_details db did uid = some d →
      ∃ doc ∈ db.docs, doc.id = did ∧ doc.user_id = uid)
    ∧ (∀ (db1 db2 : HealthDB) (did uid : Nat),
      userView db1 uid = userView db2 uid →
      get_document_details db1 did uid = get_document_details db2 did uid) := by
  constructor
  · intro db did uid d h
    unfold get_document_details at h
    cases hf : db.docs.find? fun dd => dd.id = did ∧ dd.user_id = uid with
    | none => rw [hf] at h; cases h
    | some doc =>
      have hp := List.find?_some hf
      simp only [decide_eq_true_eq] at hp
      exact ⟨doc, List.mem_of_find?_eq_some hf, hp⟩
  · intro db1 db2 did uid hv
    rw [get_document_details_eq_view db1, get_document_details_eq_view db2, hv]

/-- A store with one document per user. -/
def c9db1 : HealthDB where
  docs := [⟨1, 1, "a.pdf", "/a", "ecg", 1, "text a", 2, "2024-01-01", "{}"⟩,
           ⟨2, 2, "b.pdf", "/b", "report", 1, "text b", 2, "2024-01-02", "{}"⟩]
  summaries := [⟨1, "short a", "detail a", "[]", "[]"⟩]
  meds := []
  labs := []
  tags := [⟨1, "cardiology", "system"⟩]

/-- The same store with only user 2's records changed: a renamed second
document and a new medication row attached to it. -/
def c9db2 : HealthDB := { c9db1 with
  docs := [⟨1, 1, "a.pdf", "/a", "ecg", 1, "text a", 2, "2024-01-01", "{}"⟩,
           ⟨2, 2, "c.pdf", "/c", "report", 1, "text b2", 3, "2024-01-03", "{}"⟩]
  meds := [⟨2, "aspirin", "100mg", "daily", 1⟩] }

/-- The details user 1 sees for document 1 in `c9db1`. -/
def c9dval : DocumentDetails where
  id := 1
  file_name := "a.pdf"
  file_path := "/a"
  document_type := "ecg"
  confidence_score := 1
  text_content := "text a"
  processing_duration := 2
  created_at := "2024-01-01"
  analysis := "{}"
  summary_short := "short a"
  summary_detailed := "detail a"
  summary_key_points := "[]"
  summary_action_items := "[]"
  medications := []
  lab_values := []
  tags := ["cardiology"]

/-- C9 witness: the scoping applied to the concrete lookup of document 1
by user 1, and noninterference across a change to user 2's records. -/
theorem get_document_details_user_scoped_witness :
    (∃ doc ∈ c9db1.docs, doc.id = 1 ∧ doc.user_id = 1)
    ∧ get_document_details c9db1 1 1 = get_document_details c9db2 1 1 :=
  ⟨get_document_details_user_scoped.1 c9db1 1 1 c9dval (by decide),
   get_document_details_user_scoped.2 c9db1 c9db2 1 1 (by decide)⟩

end HealthApp
